import Mathlib

/-!
Verification development for the GRU weather forecaster firmware
(`gru_forecasting.ino`). Floating-point values are modelled as rationals;
the black-box TFLite inference engine is modelled as a parameter that maps
the flattened normalized input window to an optional output tensor
(`none` = `ModelRunInference()` failure).
-/

namespace GRUForecast

/-- One multivariate sensor reading: temperature, humidity, pressure. -/
@[ext]
structure Reading where
  t : ℚ
  h : ℚ
  p : ℚ
deriving DecidableEq

/-- `const float MEANS[] = { 25.8489, 71.6869, 1014.3396 };` -/
def MEANS : Fin 3 → ℚ := ![25.8489, 71.6869, 1014.3396]

/-- `const float STDS[]  = { 1.8326, 8.2414, 1.5094 };` -/
def STDS : Fin 3 → ℚ := ![1.8326, 8.2414, 1.5094]

/-! ## History buffer

`float historyBuffer[HISTORY_STEPS][FEATURES]; int bufferHead = 0;
bool bufferFilled = false;` with `HISTORY_STEPS = 30`.  The buffer is
polymorphic in the stored element so that the same structure serves the
numeric pipeline (`Reading`) and control-flow arguments.  C globals are
zero-initialized, so the initial buffer holds a given zero element
everywhere. -/

structure Buf (α : Type) where
  historyBuffer : ℕ → α
  bufferHead : ℕ
  bufferFilled : Bool

/-- The state of the globals at program start (zero-initialized). -/
def initBuf {α : Type} (z : α) : Buf α := ⟨fun _ => z, 0, false⟩

/-- `addReading`: write the reading at `bufferHead`, advance the head,
wrap to 0 and set `bufferFilled` once `HISTORY_STEPS` insertions occurred. -/
def addReading {α : Type} (s : Buf α) (r : α) : Buf α :=
  let buf := Function.update s.historyBuffer s.bufferHead r
  let hd := s.bufferHead + 1
  if 30 ≤ hd then ⟨buf, 0, true⟩ else ⟨buf, hd, s.bufferFilled⟩

/-- Fold a whole list of readings into the buffer, oldest first. -/
def insertAll {α : Type} (s : Buf α) (rs : List α) : Buf α :=
  List.foldl addReading s rs

/-- `int readIdx = bufferHead; if (!bufferFilled) readIdx = 0;` -/
def readIdx {α : Type} (s : Buf α) : ℕ :=
  if s.bufferFilled then s.bufferHead else 0

/-- The logical window fed to the model: for `i = 0..29` the element at
physical position `(readIdx + i) % HISTORY_STEPS`. -/
def window {α : Type} (s : Buf α) : List α :=
  (List.range 30).map (fun i => s.historyBuffer ((readIdx s + i) % 30))

/-! ## Normalizer

The firmware normalizes inline in `runForecast`:
`nT = (historyBuffer[bufPos][0] - MEANS[0]) / STDS[0]` and denormalizes as
`predT = (outT * STDS[0]) + MEANS[0]`. -/

/-- Forward transform of a single feature: `(x - mean) / std`. -/
def standardize1 (x mean std : ℚ) : ℚ := (x - mean) / std

/-- Inverse transform of a single feature: `y * std + mean`. -/
def denormalize1 (y mean std : ℚ) : ℚ := y * std + mean

/-- Per-feature normalization statistics (the firmware's `MEANS`/`STDS`). -/
structure NormParams where
  mean : Fin 3 → ℚ
  std : Fin 3 → ℚ

/-- The firmware's baked-in parameters. -/
def firmwareParams : NormParams := ⟨MEANS, STDS⟩

/-- Standardize a whole reading, feature by feature. -/
def standardizeR (r : Reading) (P : NormParams) : Reading :=
  { t := standardize1 r.t (P.mean 0) (P.std 0)
    h := standardize1 r.h (P.mean 1) (P.std 1)
    p := standardize1 r.p (P.mean 2) (P.std 2) }

/-- Denormalize a whole reading, feature by feature. -/
def denormalizeR (r : Reading) (P : NormParams) : Reading :=
  { t := denormalize1 r.t (P.mean 0) (P.std 0)
    h := denormalize1 r.h (P.mean 1) (P.std 1)
    p := denormalize1 r.p (P.mean 2) (P.std 2) }

/-- The three normalized features of one reading, in feature order, as
written by `ModelSetInput(nT, i*FEATURES+0)` etc. -/
def normalizedFeatures (r : Reading) : List ℚ :=
  [standardize1 r.t (MEANS 0) (STDS 0),
   standardize1 r.h (MEANS 1) (STDS 1),
   standardize1 r.p (MEANS 2) (STDS 2)]

/-- The flat `HISTORY_STEPS × FEATURES` input tensor, row-major by
time-step then feature (flat index `i * FEATURES + f`). -/
def modelInput (s : Buf Reading) : List ℚ :=
  ((window s).map normalizedFeatures).flatten

/-! ## Decision engine (steps 3 and 4 of `runForecast`)

The engine's raw output tensor is a function from flat index to value
(`ModelGetOutput`).  For `step` in `0..59`, `baseIdx = step * FEATURES`
and the denormalized prediction is read off feature-wise. -/

/-- The denormalized forecast reading at a given step:
`predT = ModelGetOutput(step*3+0) * STDS[0] + MEANS[0]`, etc. -/
def predReading (out : ℕ → ℚ) (step : ℕ) : Reading :=
  { t := denormalize1 (out (step * 3 + 0)) (MEANS 0) (STDS 0)
    h := denormalize1 (out (step * 3 + 1)) (MEANS 1) (STDS 1)
    p := denormalize1 (out (step * 3 + 2)) (MEANS 2) (STDS 2) }

/-- The four accumulators of the analysis loop:
`float currentP = 0, futureP = 0; float maxH = 0; float futureT = 0;`. -/
structure Stats where
  currentP : ℚ
  futureP : ℚ
  futureT : ℚ
  maxH : ℚ

/-- One iteration of the analysis loop body: capture `currentP` at step 0,
`futureP`/`futureT` at step 59, and fold the running humidity maximum
(`if (predH > maxH) maxH = predH;`). -/
def statsStep (out : ℕ → ℚ) (st : Stats) (step : ℕ) : Stats :=
  let pr := predReading out step
  { currentP := if step = 0 then pr.p else st.currentP
    futureP := if step = 59 then pr.p else st.futureP
    futureT := if step = 59 then pr.t else st.futureT
    maxH := if pr.h > st.maxH then pr.h else st.maxH }

/-- The analysis loop over all `PREDICT_STEPS = 60` steps, accumulators
zero-initialized as in the firmware. -/
def stats (out : ℕ → ℚ) : Stats :=
  (List.range 60).foldl (statsStep out) ⟨0, 0, 0, 0⟩

/-- `float pressureDelta = futureP - currentP;` -/
def pressureDelta (out : ℕ → ℚ) : ℚ := (stats out).futureP - (stats out).currentP

/-- Rule 1: `if (pressureDelta < -0.8)` (also sets `badWeather`). -/
def stormWarning (out : ℕ → ℚ) : Bool := decide (pressureDelta out < -0.8)

/-- Rule 2: `if (pressureDelta < -0.3 && maxH > 85.0)` (also sets `badWeather`). -/
def rainLikely (out : ℕ → ℚ) : Bool :=
  decide (pressureDelta out < -0.3) && decide ((stats out).maxH > 85)

/-- Rule 3a: `if (futureT > 35.0)`. Does NOT set `badWeather`. -/
def heatAlert (out : ℕ → ℚ) : Bool := decide ((stats out).futureT > 35)

/-- Rule 3b: `if (futureT < 5.0)`. Does NOT set `badWeather`. -/
def freezeAlert (out : ℕ → ℚ) : Bool := decide ((stats out).futureT < 5)

/-- `badWeather` is set by rules 1 and 2 only. -/
def badWeather (out : ℕ → ℚ) : Bool := stormWarning out || rainLikely out

/-- The STATUS line condition: `pressureDelta > 0.5` selects RISING. -/
def statusRising (out : ℕ → ℚ) : Bool := decide (pressureDelta out > 0.5)

/-- The alert set emitted by one run of the decision engine.  `status` is
`none` when the STATUS line is not printed (`badWeather` was set),
`some true` for RISING, `some false` for STABLE. -/
structure Analysis where
  stormWarning : Bool
  rainLikely : Bool
  heatAlert : Bool
  freezeAlert : Bool
  status : Option Bool
deriving DecidableEq

/-- The full decision-engine result of `runForecast` for a given raw
output tensor. -/
def analysis (out : ℕ → ℚ) : Analysis :=
  { stormWarning := stormWarning out
    rainLikely := rainLikely out
    heatAlert := heatAlert out
    freezeAlert := freezeAlert out
    status := if badWeather out then none else some (statusRising out) }

/-- The spec's `maxHumidity`: the maximum of the denormalized humidity
over the 60 forecast steps themselves. -/
def specMaxHumidity (out : ℕ → ℚ) : ℚ :=
  (List.range 60).foldl (fun a s => max a ((predReading out s).h)) ((predReading out 0).h)

/-! ## Orchestrator

`runForecast` builds the input tensor from the window, invokes the engine,
and on success denormalizes the output and runs the decision engine; on
`ModelRunInference()` failure it returns immediately.  The buffer globals
are read but never written by `runForecast`, which the explicit
state-passing translation records by returning the state unchanged. -/

/-- The black-box inference engine: flattened normalized input tensor to
optional raw output tensor; `none` models an invocation failure. -/
def Engine : Type := List ℚ → Option (ℕ → ℚ)

/-- `runForecast`: returns the (unchanged) buffer state and the report of
the decision engine, `none` when inference failed. -/
def runForecast (engine : Engine) (s : Buf Reading) : Buf Reading × Option Analysis :=
  match engine (modelInput s) with
  | none => (s, none)
  | some out => (s, some (analysis out))

/-- One sensor sampling: each of the three reads carries a NaN flag
(`isnan`) and, when valid, a value. -/
structure SensorCycle where
  tNan : Bool
  hNan : Bool
  pNan : Bool
  t : ℚ
  h : ℚ
  p : ℚ

/-- The body of `loop()` once the 60 s period has elapsed, control-flow
skeleton: `if (isnan(t)) return;` then `addReading` and `runForecast`.
The boolean records whether `runForecast` was invoked this cycle. -/
def loopCycle (s : Buf Reading) (c : SensorCycle) : Buf Reading × Bool :=
  if c.tNan then (s, false) else (addReading s ⟨c.t, c.h, c.p⟩, true)

/-- The body of `loop()` with the forecast included: on a non-NaN
temperature the fresh reading is inserted and `runForecast` runs on the
updated buffer. -/
def liveCycle (engine : Engine) (s : Buf Reading) (c : SensorCycle) :
    Buf Reading × Option Analysis :=
  if c.tNan then (s, none) else runForecast engine (addReading s ⟨c.t, c.h, c.p⟩)

/-- The 30 pre-fill readings inserted by `setup()`. -/
def prefillData : List Reading :=
  [⟨25.3950, 75.5596, 1011.2584⟩, ⟨25.1133, 74.9915, 1011.2528⟩,
   ⟨24.8733, 75.8122, 1011.2687⟩, ⟨24.7517, 76.1501, 1011.2537⟩,
   ⟨24.6300, 76.4880, 1011.2388⟩, ⟨24.5800, 76.9477, 1011.2078⟩,
   ⟨24.6000, 77.0991, 1011.2034⟩, ⟨24.6150, 77.3452, 1011.2026⟩,
   ⟨24.6425, 77.2053, 1011.2025⟩, ⟨24.6650, 76.7959, 1011.2147⟩,
   ⟨24.7233, 76.8454, 1011.1916⟩, ⟨24.8225, 76.5620, 1011.2219⟩,
   ⟨24.8200, 76.3950, 1011.2301⟩, ⟨24.8000, 76.1641, 1011.1937⟩,
   ⟨24.8850, 75.7163, 1011.2161⟩, ⟨24.9000, 75.7031, 1011.2365⟩,
   ⟨24.9500, 75.5540, 1011.2335⟩, ⟨24.9400, 75.3188, 1011.2362⟩,
   ⟨24.9750, 75.5537, 1011.2307⟩, ⟨25.0167, 75.6143, 1011.1697⟩,
   ⟨24.9850, 75.1997, 1011.1671⟩, ⟨24.9475, 75.3091, 1011.1870⟩,
   ⟨24.9333, 75.5120, 1011.1874⟩, ⟨24.9750, 75.3403, 1011.1866⟩,
   ⟨24.8933, 75.0391, 1011.1830⟩, ⟨24.8400, 74.8421, 1011.1948⟩,
   ⟨24.8750, 75.1914, 1011.1969⟩, ⟨24.8933, 75.3994, 1011.1791⟩,
   ⟨24.8933, 75.5557, 1011.1844⟩, ⟨24.9050, 75.9697, 1011.1694⟩]

/-- The zero reading (C globals are zero-initialized). -/
def zeroReading : Reading := ⟨0, 0, 0⟩

/-- The buffer state at the end of `setup()`: the 30 pre-fill readings
inserted into the zero-initialized buffer. -/
def setupState : Buf Reading := insertAll (initBuf zeroReading) prefillData

/-- The buffer state after `setup()` followed by any sequence of `loop()`
cycles. -/
def stateAfter (cs : List SensorCycle) : Buf Reading :=
  cs.foldl (fun s c => (loopCycle s c).1) setupState

/-- The abstract description of one physical buffer slot after a list of
insertions: slot `j` holds the most recent inserted element whose
insertion index is congruent to `j` mod 30, or the zero element when no
insertion has written that slot yet. -/
def slotModel {α : Type} (z : α) (rs : List α) (j : ℕ) : α :=
  if j < rs.length % 30 then rs.getD (30 * (rs.length / 30) + j) z
  else if 30 ≤ rs.length then rs.getD (30 * (rs.length / 30) + j - 30) z
  else z

/-- Invariant tying a buffer state to the list of all elements inserted
into it since the zero-initialized start. -/
def BufInv {α : Type} (z : α) (rs : List α) (s : Buf α) : Prop :=
  s.bufferHead = rs.length % 30 ∧
    s.bufferFilled = decide (30 ≤ rs.length) ∧
    ∀ j < 30, s.historyBuffer j = slotModel z rs j

/-! ### Concrete inputs used in the claim-level theorems -/

/-- An output tensor that is zero everywhere. -/
def outZero : ℕ → ℚ := fun _ => 0

/-- An engine that always succeeds with the all-zero output tensor. -/
def engineConstZero : Engine := fun _ => some outZero

/-- An engine whose invocation always fails. -/
def engineFail : Engine := fun _ => none

/-- An output tensor whose decision-engine `pressureDelta` is exactly
`-0.8`: flat index 179 is forecast step 59's pressure, and
`-4000/7547 * 1.5094 = -0.8`. -/
def outDeltaNeg08 : ℕ → ℚ := fun i => if i = 179 then -4000/7547 else 0

/-- An output tensor whose `pressureDelta` is exactly `-0.8000001`. -/
def outDeltaNeg08eps : ℕ → ℚ := fun i => if i = 179 then -8000001/15094000 else 0

/-- An output tensor realizing the spec's Scenario C: denormalized
`futureTemp = 36.2` (flat index 177 is step 59's temperature) and
`pressureDelta = +0.1`. -/
def outScenarioC : ℕ → ℚ :=
  fun i => if i = 177 then 103511/18326 else if i = 179 then 500/7547 else 0

/-- A live sensor cycle with all three reads valid, pressure 1000 hPa. -/
def liveReading : SensorCycle := ⟨false, false, false, 20, 50, 1000⟩

/-- A sensor cycle whose humidity read is NaN but whose temperature and
pressure reads are valid. -/
def humNaNReading : SensorCycle := ⟨false, true, false, 20, 50, 1000⟩

/-- A sensor cycle whose temperature read is NaN. -/
def tempNaNReading : SensorCycle := ⟨true, false, false, 20, 50, 1000⟩

end GRUForecast

/-! ## Lemmas and claim theorems -/

namespace GRUForecast

theorem MEANS_0 : MEANS 0 = 25.8489 := rfl

theorem MEANS_1 : MEANS 1 = 71.6869 := rfl

theorem MEANS_2 : MEANS 2 = 1014.3396 := rfl

theorem STDS_0 : STDS 0 = 1.8326 := rfl

theorem STDS_1 : STDS 1 = 8.2414 := rfl

theorem STDS_2 : STDS 2 = 1.5094 := rfl

/-- `currentP` is untouched by every loop iteration with `step ≠ 0`. -/
theorem foldl_statsStep_currentP (out : ℕ → ℚ) :
    ∀ (l : List ℕ) (st : Stats), (∀ x ∈ l, x ≠ 0) →
      (List.foldl (statsStep out) st l).currentP = st.currentP := by
  intro l
  induction l with
  | nil => intro st _; rfl
  | cons a l ih =>
    intro st hl
    rw [List.foldl_cons, ih _ (fun x hx => hl x (List.mem_cons_of_mem a hx))]
    simp [statsStep, hl a (List.mem_cons_self a l)]

/-- After the loop, `currentP` is the denormalized pressure of forecast
step 0. -/
theorem stats_currentP (out : ℕ → ℚ) : (stats out).currentP = (predReading out 0).p := by
  have h : List.range 60 = 0 :: (List.range 59).map Nat.succ := List.range_succ_eq_map 59
  rw [stats, h, List.foldl_cons, foldl_statsStep_currentP]
  · simp [statsStep]
  · intro x hx
    rcases List.mem_map.mp hx with ⟨y, -, rfl⟩
    exact Nat.succ_ne_zero y

/-- After the loop, `futureP` is the denormalized pressure of forecast
step 59. -/
theorem stats_futureP (out : ℕ → ℚ) : (stats out).futureP = (predReading out 59).p := by
  have h : List.range 60 = List.range 59 ++ [59] := List.range_succ 59
  rw [stats, h, List.foldl_append, List.foldl_cons, List.foldl_nil]
  simp [statsStep]

/-- After the loop, `futureT` is the denormalized temperature of forecast
step 59. -/
theorem stats_futureT (out : ℕ → ℚ) : (stats out).futureT = (predReading out 59).t := by
  have h : List.range 60 = List.range 59 ++ [59] := List.range_succ 59
  rw [stats, h, List.foldl_append, List.foldl_cons, List.foldl_nil]
  simp [statsStep]

/-- The `maxH` accumulator evolves independently of the other three. -/
theorem foldl_statsStep_maxH (out : ℕ → ℚ) :
    ∀ (l : List ℕ) (st : Stats),
      (List.foldl (statsStep out) st l).maxH =
        List.foldl (fun a s => if (predReading out s).h > a then (predReading out s).h else a)
          st.maxH l := by
  intro l
  induction l with
  | nil => intro st; rfl
  | cons a l ih =>
    intro st
    rw [List.foldl_cons, ih, List.foldl_cons]
    rfl

theorem stats_maxH (out : ℕ → ℚ) :
    (stats out).maxH =
      (List.range 60).foldl
        (fun a s => if (predReading out s).h > a then (predReading out s).h else a) 0 := by
  rw [stats, foldl_statsStep_maxH]

/-- Strict lower bounds on the firmware's running-maximum fold. -/
theorem lt_foldl_ite (g : ℕ → ℚ) (c : ℚ) :
    ∀ (l : List ℕ) (a : ℚ),
      c < List.foldl (fun a s => if g s > a then g s else a) a l ↔
        c < a ∨ ∃ x ∈ l, c < g x := by
  have key : ∀ a b : ℚ, (c < if b > a then b else a) ↔ c < a ∨ c < b := by
    intro a b
    split
    · rename_i hba
      constructor
      · exact fun h => Or.inr h
      · rintro (h | h)
        · exact lt_trans h hba
        · exact h
    · rename_i hba
      push_neg at hba
      constructor
      · exact fun h => Or.inl h
      · rintro (h | h)
        · exact h
        · exact lt_of_lt_of_le h hba
  intro l
  induction l with
  | nil => intro a; simp
  | cons b l ih =>
    intro a
    rw [List.foldl_cons, ih, key]
    simp only [List.mem_cons, exists_eq_or_imp]
    rw [or_assoc]

/-- Strict lower bounds on the spec-side `max` fold. -/
theorem lt_foldl_max (g : ℕ → ℚ) (c : ℚ) :
    ∀ (l : List ℕ) (a : ℚ),
      c < List.foldl (fun a s => max a (g s)) a l ↔ c < a ∨ ∃ x ∈ l, c < g x := by
  intro l
  induction l with
  | nil => intro a; simp
  | cons b l ih =>
    intro a
    rw [List.foldl_cons, ih, lt_max_iff]
    simp only [List.mem_cons, exists_eq_or_imp]
    rw [or_assoc]

/-- For a nonnegative threshold, the firmware's zero-seeded humidity
maximum exceeds it exactly when some forecast step's humidity does. -/
theorem stats_maxH_gt_iff (out : ℕ → ℚ) (c : ℚ) (hc : 0 ≤ c) :
    c < (stats out).maxH ↔ ∃ s ∈ List.range 60, c < (predReading out s).h := by
  rw [stats_maxH, lt_foldl_ite]
  have h0 : ¬c < (0 : ℚ) := not_lt.mpr hc
  tauto

/-- The spec-side maximum exceeds a threshold exactly when some forecast
step's humidity does. -/
theorem specMaxHumidity_gt_iff (out : ℕ → ℚ) (c : ℚ) :
    c < specMaxHumidity out ↔ ∃ s ∈ List.range 60, c < (predReading out s).h := by
  rw [specMaxHumidity, lt_foldl_max]
  constructor
  · rintro (h | h)
    · exact ⟨0, by simp, h⟩
    · exact h
  · exact fun h => Or.inr h

end GRUForecast

namespace GRUForecast

/-- Claim C1, counterexample.  A full live cycle with an all-valid sensor
reading of pressure 1000 hPa and an engine returning the all-zero output
tensor: the decision engine's `pressureDelta` is the difference of the
denormalized step-59 and step-0 pressures (here `0`), not
`forecast[59].pressure - current.pressure` (here `14.3396`). -/
theorem c1_pressureNow_counterexample :
    (liveCycle engineConstZero setupState liveReading).2 = some (analysis outZero) ∧
    pressureDelta outZero ≠ (predReading outZero 59).p - liveReading.p := by
  constructor
  · rfl
  · rw [pressureDelta, stats_futureP, stats_currentP]
    norm_num [predReading, outZero, denormalize1, liveReading, MEANS_2, STDS_2]

/-- Claim C1, amended: in every forecasting cycle `pressureNow` is the
denormalized pressure of forecast step 0, so
`pressureDelta = forecast[59].pressure - forecast[0].pressure`; the live
reading does not enter the subtraction. -/
theorem c1_pressureDelta_from_forecast (out : ℕ → ℚ) :
    pressureDelta out = (predReading out 59).p - (predReading out 0).p := by
  rw [pressureDelta, stats_futureP, stats_currentP]

/-- Claim C2, counterexample.  Scenario C (`futureTemp = 36.2`,
`pressureDelta = +0.1`): HEAT_ALERT fires and yet the STATUS line is
still computed and emitted (as STABLE), because heat/freeze alerts do not
set `badWeather`. -/
theorem c2_status_counterexample :
    (stats outScenarioC).futureT = 36.2 ∧ pressureDelta outScenarioC = 0.1 ∧
    (analysis outScenarioC).heatAlert = true ∧
    (analysis outScenarioC).status = some false := by
  have hT : (stats outScenarioC).futureT = 36.2 := by
    rw [stats_futureT]
    norm_num [predReading, outScenarioC, denormalize1, MEANS_0, STDS_0]
  have hD : pressureDelta outScenarioC = 0.1 := by
    rw [pressureDelta, stats_futureP, stats_currentP]
    norm_num [predReading, outScenarioC, denormalize1, MEANS_2, STDS_2]
  have hs : stormWarning outScenarioC = false := by
    simp only [stormWarning, hD, decide_eq_false_iff_not, not_lt]
    norm_num
  have hrain : ¬pressureDelta outScenarioC < -0.3 := by rw [hD]; norm_num
  have hr : rainLikely outScenarioC = false := by
    simp [rainLikely, hrain]
  refine ⟨hT, hD, ?_, ?_⟩
  · simp only [analysis, heatAlert, hT, decide_eq_true_eq]
    norm_num
  · simp only [analysis, badWeather, hs, hr, Bool.or_self, Bool.false_or, if_false,
      statusRising, hD, Option.some.injEq]
    norm_num

/-- Claim C2, amended: the STATUS line is suppressed exactly when
STORM_WARNING or RAIN_LIKELY fired; HEAT_ALERT and FREEZE_ALERT do not
suppress it. -/
theorem c2_status_suppressed_iff (out : ℕ → ℚ) :
    (analysis out).status = none ↔ stormWarning out = true ∨ rainLikely out = true := by
  simp only [analysis]
  cases hs : stormWarning out <;> cases hr : rainLikely out <;>
    simp [badWeather, hs, hr]

/-- Claim C5: when `ModelRunInference()` fails, `runForecast` returns
immediately: no output is read, no alerts or STATUS are produced, and the
buffer state is unchanged. -/
theorem c5_inference_failure_skips (engine : Engine) (s : Buf Reading)
    (hfail : engine (modelInput s) = none) :
    runForecast engine s = (s, none) := by
  simp [runForecast, hfail]

/-- Witness for C5 at the always-failing engine and the initial buffer. -/
theorem c5_inference_failure_skips_witness :
    runForecast engineFail (initBuf zeroReading) = (initBuf zeroReading, none) :=
  c5_inference_failure_skips engineFail (initBuf zeroReading) rfl

/-- Claim C6: RAIN_LIKELY fires iff `pressureDelta < -0.3` and the
maximum denormalized humidity over the 60 forecast steps exceeds 85. -/
theorem c6_rain_likely_iff (out : ℕ → ℚ) :
    rainLikely out = true ↔ pressureDelta out < -0.3 ∧ 85 < specMaxHumidity out := by
  simp only [rainLikely, Bool.and_eq_true, decide_eq_true_eq, gt_iff_lt]
  rw [stats_maxH_gt_iff out 85 (by norm_num), specMaxHumidity_gt_iff]

/-- Claim C7: STORM_WARNING fires iff `pressureDelta < -0.8`, strictly:
a forecast with `pressureDelta` exactly `-0.8` does not fire it, one with
`-0.8000001` does. -/
theorem c7_storm_warning_strict (out : ℕ → ℚ) :
    (stormWarning out = true ↔ pressureDelta out < -0.8) ∧
    stormWarning outDeltaNeg08 = false ∧
    stormWarning outDeltaNeg08eps = true := by
  refine ⟨by simp [stormWarning], ?_, ?_⟩
  · have hD : pressureDelta outDeltaNeg08 = -0.8 := by
      rw [pressureDelta, stats_futureP, stats_currentP]
      norm_num [predReading, outDeltaNeg08, denormalize1, MEANS_2, STDS_2]
    simp only [stormWarning, hD, decide_eq_false_iff_not, not_lt]
    norm_num
  · have hD : pressureDelta outDeltaNeg08eps = -0.8000001 := by
      rw [pressureDelta, stats_futureP, stats_currentP]
      norm_num [predReading, outDeltaNeg08eps, denormalize1, MEANS_2, STDS_2]
    simp only [stormWarning, hD, decide_eq_true_eq]
    norm_num

/-- Claim C8: denormalizing the standardization of any reading, for any
parameters with positive per-feature standard deviation, yields the
reading back exactly (over the rationals). -/
theorem c8_normalization_round_trip (r : Reading) (P : NormParams)
    (hstd : ∀ i : Fin 3, 0 < P.std i) :
    denormalizeR (standardizeR r P) P = r := by
  have h0 : P.std 0 ≠ 0 := ne_of_gt (hstd 0)
  have h1 : P.std 1 ≠ 0 := ne_of_gt (hstd 1)
  have h2 : P.std 2 ≠ 0 := ne_of_gt (hstd 2)
  ext
  · simp [denormalizeR, standardizeR, denormalize1, standardize1, div_mul_cancel₀, h0]
  · simp [denormalizeR, standardizeR, denormalize1, standardize1, div_mul_cancel₀, h1]
  · simp [denormalizeR, standardizeR, denormalize1, standardize1, div_mul_cancel₀, h2]

/-- Witness for C8 at the firmware's own normalization constants. -/
theorem c8_normalization_round_trip_witness :
    denormalizeR (standardizeR ⟨25, 70, 1000⟩ firmwareParams) firmwareParams =
      ⟨25, 70, 1000⟩ :=
  c8_normalization_round_trip ⟨25, 70, 1000⟩ firmwareParams (by
    have h0 : (0 : ℚ) < STDS 0 := by rw [STDS_0]; norm_num
    have h1 : (0 : ℚ) < STDS 1 := by rw [STDS_1]; norm_num
    have h2 : (0 : ℚ) < STDS 2 := by rw [STDS_2]; norm_num
    intro i
    match i with
    | 0 => exact h0
    | 1 => exact h1
    | 2 => exact h2)

end GRUForecast

namespace GRUForecast

/-- `getD` on a list extended by one element on the right. -/
theorem getD_snoc {α : Type} (rs : List α) (r z : α) :
    ∀ i : ℕ, (rs ++ [r]).getD i z =
      if i < rs.length then rs.getD i z else if i = rs.length then r else z := by
  induction rs with
  | nil =>
    intro i
    cases i with
    | zero => simp
    | succ n => simp [List.getD]
  | cons a l ih =>
    intro i
    cases i with
    | zero => simp
    | succ n =>
      simp only [List.cons_append, List.getD_cons_succ, ih n, List.length_cons,
        Nat.add_lt_add_iff_right, Nat.add_right_cancel_iff]

/-- The zero-initialized buffer satisfies the invariant for the empty
insertion history. -/
theorem bufInv_init {α : Type} (z : α) : BufInv z [] (initBuf z) := by
  refine ⟨rfl, rfl, ?_⟩
  intro j _
  simp [initBuf, slotModel]

/-- Appending one element to the insertion history updates the abstract
slot description at exactly the head position. -/
theorem slotModel_snoc {α : Type} (z : α) (rs : List α) (r : α) :
    ∀ j < 30, slotModel z (rs ++ [r]) j =
      if j = rs.length % 30 then r else slotModel z rs j := by
  intro j hj
  simp only [slotModel, List.length_append, List.length_singleton]
  by_cases hwrap : rs.length % 30 = 29
  · have hmod : (rs.length + 1) % 30 = 0 := by omega
    have hge : 30 ≤ rs.length + 1 := by omega
    have hdivA : 30 * ((rs.length + 1) / 30) = rs.length + 1 := by omega
    rw [hmod, if_neg (by omega : ¬j < 0), if_pos hge, hdivA, getD_snoc]
    by_cases hj29 : j = 29
    · subst hj29
      rw [if_neg (by omega), if_pos (by omega), if_pos (by omega)]
    · rw [if_pos (by omega), if_neg (by omega : ¬j = rs.length % 30)]
      rw [if_pos (by omega : j < rs.length % 30)]
      congr 1
      omega
  · have hmod : (rs.length + 1) % 30 = rs.length % 30 + 1 := by omega
    have hdiv : (rs.length + 1) / 30 = rs.length / 30 := by omega
    rw [hmod, hdiv]
    by_cases hjhd : j = rs.length % 30
    · rw [if_pos (by omega), getD_snoc, if_neg (by omega), if_pos (by omega), if_pos hjhd]
    · rw [if_neg hjhd]
      by_cases hjlt : j < rs.length % 30
      · rw [if_pos (by omega), getD_snoc, if_pos (by omega), if_pos hjlt]
      · rw [if_neg (by omega : ¬j < rs.length % 30 + 1)]
        by_cases hK : 30 ≤ rs.length
        · rw [if_pos (by omega), getD_snoc, if_pos (by omega), if_neg hjlt, if_pos hK]
        · rw [if_neg (by omega : ¬30 ≤ rs.length + 1), if_neg hjlt, if_neg hK]

/-- `addReading` preserves the buffer invariant, extending the insertion
history by one element. -/
theorem bufInv_step {α : Type} (z : α) (rs : List α) (r : α) (s : Buf α)
    (h : BufInv z rs s) : BufInv z (rs ++ [r]) (addReading s r) := by
  obtain ⟨hhd, hfill, hbuf⟩ := h
  have hKlt : rs.length % 30 < 30 := Nat.mod_lt _ (by omega)
  have hslot : ∀ j < 30, Function.update s.historyBuffer s.bufferHead r j =
      slotModel z (rs ++ [r]) j := by
    intro j hj
    rw [slotModel_snoc z rs r j hj, Function.update_apply, hhd]
    by_cases hc : j = rs.length % 30
    · rw [if_pos hc, if_pos hc]
    · rw [if_neg hc, if_neg hc, hbuf j hj]
  simp only [addReading]
  by_cases hwrap : 30 ≤ s.bufferHead + 1
  · rw [if_pos hwrap]
    refine ⟨?_, ?_, ?_⟩
    · show (0 : ℕ) = (rs ++ [r]).length % 30
      simp only [List.length_append, List.length_singleton]
      omega
    · show true = decide (30 ≤ (rs ++ [r]).length)
      simp only [List.length_append, List.length_singleton]
      rw [eq_comm, decide_eq_true_eq]
      omega
    · intro j hj
      show Function.update s.historyBuffer s.bufferHead r j = slotModel z (rs ++ [r]) j
      exact hslot j hj
  · rw [if_neg hwrap]
    refine ⟨?_, ?_, ?_⟩
    · show s.bufferHead + 1 = (rs ++ [r]).length % 30
      simp only [List.length_append, List.length_singleton]
      omega
    · show s.bufferFilled = decide (30 ≤ (rs ++ [r]).length)
      rw [hfill]
      simp only [List.length_append, List.length_singleton, decide_eq_decide]
      omega
    · intro j hj
      show Function.update s.historyBuffer s.bufferHead r j = slotModel z (rs ++ [r]) j
      exact hslot j hj

/-- The buffer invariant holds after any sequence of insertions into the
zero-initialized buffer. -/
theorem bufInv_insertAll {α : Type} (z : α) (rs : List α) :
    BufInv z rs (insertAll (initBuf z) rs) := by
  induction rs using List.reverseRecOn with
  | nil => exact bufInv_init z
  | append_singleton l r ih =>
    rw [insertAll, List.foldl_append, List.foldl_cons, List.foldl_nil]
    exact bufInv_step z l r _ ih

end GRUForecast

namespace GRUForecast

/-- `getD` agrees with `getElem` at in-range indices. -/
theorem getD_eq_getElem {α : Type} (l : List α) (z : α) (n : ℕ) (hn : n < l.length) :
    l.getD n z = l[n] := by
  rw [List.getD_eq_getElem?_getD, List.getElem?_eq_getElem hn, Option.getD_some]

/-- The window read out for inference, as a function of the full insertion
history: for 30 or more insertions it is the last 30 inserted elements in
insertion order; for fewer it is the inserted elements in order followed
by the remaining zero-initialized slots. -/
theorem window_insertAll {α : Type} (z : α) (rs : List α) :
    window (insertAll (initBuf z) rs) =
      if 30 ≤ rs.length then rs.drop (rs.length - 30)
      else rs ++ List.replicate (30 - rs.length) z := by
  obtain ⟨hhd, hfill, hbuf⟩ := bufInv_insertAll z rs
  by_cases h30 : 30 ≤ rs.length
  · rw [if_pos h30]
    apply List.ext_getElem
    · simp [window]
      omega
    · intro i h1 h2
      have hi30 : i < 30 := by simpa [window] using h1
      simp only [window, List.getElem_map, List.getElem_range]
      rw [readIdx, hfill, decide_eq_true h30, if_pos rfl, hhd,
        hbuf _ (Nat.mod_lt _ (by omega)), List.getElem_drop]
      by_cases hi : i < 30 - rs.length % 30
      · have hm : (rs.length % 30 + i) % 30 = rs.length % 30 + i :=
          Nat.mod_eq_of_lt (by omega)
        rw [hm, slotModel]
        rw [if_neg (by omega), if_pos h30]
        have hidx : 30 * (rs.length / 30) + (rs.length % 30 + i) - 30 =
            rs.length - 30 + i := by omega
        rw [hidx, getD_eq_getElem rs z _ (by omega)]
      · have hm : (rs.length % 30 + i) % 30 = rs.length % 30 + i - 30 := by
          omega
        rw [hm, slotModel]
        rw [if_pos (by omega)]
        have hidx : 30 * (rs.length / 30) + (rs.length % 30 + i - 30) =
            rs.length - 30 + i := by omega
        rw [hidx, getD_eq_getElem rs z _ (by omega)]
  · rw [if_neg h30]
    apply List.ext_getElem
    · simp [window]
      omega
    · intro i h1 h2
      have hi30 : i < 30 := by simpa [window] using h1
      simp only [window, List.getElem_map, List.getElem_range]
      rw [readIdx, hfill]
      rw [decide_eq_false (by omega : ¬30 ≤ rs.length), if_neg (by simp), Nat.zero_add,
        Nat.mod_eq_of_lt hi30, hbuf i hi30, slotModel]
      by_cases hiK : i < rs.length
      · rw [if_pos (by omega)]
        have hidx : 30 * (rs.length / 30) + i = i := by omega
        rw [hidx, getD_eq_getElem rs z i (by omega),
          List.getElem_append_left (by omega)]
      · rw [if_neg (by omega), if_neg (by omega),
          List.getElem_append_right (by omega)]
        rw [List.getElem_replicate]

/-- Claim C3, counterexample.  After a single insertion the window read
out for inference is not the one-element list of that insertion: it
always has 30 entries. -/
theorem c3_window_counterexample :
    window (insertAll (initBuf zeroReading) [⟨1, 2, 3⟩]) ≠ [(⟨1, 2, 3⟩ : Reading)] := by
  intro hEq
  have hlen := congrArg List.length hEq
  simp [window] at hlen

/-- Claim C3, amended: for K ≥ 30 insertions the window is exactly the
last 30 inserted Readings in insertion order (oldest first); for K < 30
it is the K inserted Readings in insertion order followed by the 30 − K
still-zero-initialized slots. -/
theorem c3_window_ordering (rs : List Reading) :
    window (insertAll (initBuf zeroReading) rs) =
      if 30 ≤ rs.length then rs.drop (rs.length - 30)
      else rs ++ List.replicate (30 - rs.length) zeroReading :=
  window_insertAll zeroReading rs

/-- The buffer written by `addReading` differs from the previous buffer
only at the old head slot. -/
theorem addReading_historyBuffer {α : Type} (s : Buf α) (r : α) :
    (addReading s r).historyBuffer = Function.update s.historyBuffer s.bufferHead r := by
  simp only [addReading]
  split <;> rfl

/-- `addReading` never clears the filled flag. -/
theorem addReading_filled_mono {α : Type} (s : Buf α) (r : α)
    (h : s.bufferFilled = true) : (addReading s r).bufferFilled = true := by
  simp only [addReading]
  split
  · rfl
  · exact h

/-- Claim C9: after any insertion history, one more `addReading` keeps the
head index in `[0, 30)`, leaves the filled flag true exactly when at least
30 insertions have occurred in total, and changes no buffer slot other
than the one at the old head index. -/
theorem c9_insert_invariants {α : Type} (z : α) (rs : List α) (r : α) :
    (addReading (insertAll (initBuf z) rs) r).bufferHead < 30 ∧
    ((addReading (insertAll (initBuf z) rs) r).bufferFilled = true ↔ 30 ≤ rs.length + 1) ∧
    (∀ j : ℕ, j ≠ (insertAll (initBuf z) rs).bufferHead →
      (addReading (insertAll (initBuf z) rs) r).historyBuffer j =
        (insertAll (initBuf z) rs).historyBuffer j) := by
  obtain ⟨hhd, hfill, -⟩ := bufInv_step z rs r _ (bufInv_insertAll z rs)
  refine ⟨?_, ?_, ?_⟩
  · rw [hhd]
    simp only [List.length_append, List.length_singleton]
    omega
  · rw [hfill]
    simp only [List.length_append, List.length_singleton, decide_eq_true_eq]
  · intro j hj
    rw [addReading_historyBuffer, Function.update_apply, if_neg hj]

/-- Witness for C9 after two insertions into a rational-valued buffer,
with untouched slot 5. -/
theorem c9_insert_invariants_witness :
    (addReading (insertAll (initBuf (0 : ℚ)) [1, 2]) 3).bufferHead < 30 ∧
    ((addReading (insertAll (initBuf (0 : ℚ)) [1, 2]) 3).bufferFilled = true ↔
      30 ≤ [(1 : ℚ), 2].length + 1) ∧
    (addReading (insertAll (initBuf (0 : ℚ)) [1, 2]) 3).historyBuffer 5 =
      (insertAll (initBuf (0 : ℚ)) [1, 2]).historyBuffer 5 := by
  obtain ⟨h1, h2, h3⟩ := c9_insert_invariants (0 : ℚ) [1, 2] 3
  refine ⟨h1, h2, h3 5 ?_⟩
  rw [(bufInv_insertAll (0 : ℚ) [1, 2]).1]
  simp

/-- Claim C10: after `setup()` pre-fills the buffer with 30 readings, the
filled flag is true at every subsequent orchestrator state, so every
forecast invocation sees a filled buffer and the partial-window path
(`readIdx = 0` over a not-yet-filled buffer) is never taken:
`readIdx` always equals the head index. -/
theorem c10_always_filled (cs : List SensorCycle) :
    (stateAfter cs).bufferFilled = true ∧
    readIdx (stateAfter cs) = (stateAfter cs).bufferHead := by
  have hsetup : setupState.bufferFilled = true := by
    have h := (bufInv_insertAll zeroReading prefillData).2.1
    have hs : setupState = insertAll (initBuf zeroReading) prefillData := rfl
    rw [hs, h]
    rfl
  have hpres : ∀ (s : Buf Reading) (c : SensorCycle), s.bufferFilled = true →
      ((loopCycle s c).1).bufferFilled = true := by
    intro s c h
    by_cases htn : c.tNan
    · simp [loopCycle, htn, h]
    · simp only [loopCycle, htn, Bool.false_eq_true, if_false]
      exact addReading_filled_mono _ _ h
  have main : ∀ (l : List SensorCycle) (s : Buf Reading), s.bufferFilled = true →
      (l.foldl (fun s c => (loopCycle s c).1) s).bufferFilled = true := by
    intro l
    induction l with
    | nil => intro s h; exact h
    | cons c l ih =>
      intro s h
      rw [List.foldl_cons]
      exact ih _ (hpres s c h)
  have hfull : (stateAfter cs).bufferFilled = true := main cs setupState hsetup
  exact ⟨hfull, by rw [readIdx, hfull]; rfl⟩

/-- Claim C4, counterexample.  A cycle whose humidity read is NaN (but
temperature is valid) is NOT skipped: the reading is inserted (the head
index changes) and the forecast runs. -/
theorem c4_nan_skip_counterexample :
    (loopCycle (initBuf zeroReading) humNaNReading).2 = true ∧
    (loopCycle (initBuf zeroReading) humNaNReading).1.bufferHead ≠
      (initBuf zeroReading).bufferHead := by
  constructor
  · rfl
  · have h1 : (loopCycle (initBuf zeroReading) humNaNReading).1.bufferHead = 1 := rfl
    rw [h1]
    simp [initBuf]

/-- Claim C4, amended: the orchestrator skips the insert and the forecast
exactly when the temperature read is NaN; a NaN humidity or pressure read
is inserted as-is and the forecast still runs. -/
theorem c4_skip_iff_temperature_nan (s : Buf Reading) (c : SensorCycle) :
    (c.tNan = true → loopCycle s c = (s, false)) ∧
    (c.tNan = false → loopCycle s c = (addReading s ⟨c.t, c.h, c.p⟩, true)) := by
  constructor
  · intro h
    simp [loopCycle, h]
  · intro h
    simp [loopCycle, h]

/-- Witness for C4 (amended) at both a NaN-temperature cycle and a valid
cycle. -/
theorem c4_skip_iff_temperature_nan_witness :
    loopCycle (initBuf zeroReading) tempNaNReading = (initBuf zeroReading, false) ∧
    loopCycle (initBuf zeroReading) humNaNReading =
      (addReading (initBuf zeroReading)
        ⟨humNaNReading.t, humNaNReading.h, humNaNReading.p⟩, true) :=
  ⟨(c4_skip_iff_temperature_nan _ _).1 rfl, (c4_skip_iff_temperature_nan _ _).2 rfl⟩

end GRUForecast
